import Mathlib

/-! The fortuner pseudo-file (january/week3/fortuner/fortuner.c).

A shallow embedding of the three proc handlers `fortuner_open`, `fortuner_read`
and `fortuner_release`, and of the kernel routines they call.

Conventions of the embedding.

* A pointer is a `Nat`; `0` is `NULL`.  The slab heap is the list of the live
  `struct fortuner_state` objects with their addresses.  Using a pointer that is
  not live (a NULL dereference, a use after free, a double free) is undefined in
  C: the handlers then have no result (`none`).
* The table `fortunes[]` of `fortunes.h` is a parameter `catalog`, so every
  statement holds for every table; an entry is the list of the characters of its
  initialiser, and `strlen` counts up to the first NUL.  In-memory strings are
  shorter than `2^63` bytes, so `size_t`, `loff_t` and `ssize_t` values that are
  bounded by a string length are plain `Nat`/`Int`; the only conversion that can
  wrap, `u32` to `int` in `fortuner_open`, is modelled with its wrap.
* What the environment decides is an argument of the handler: whether
  `kmalloc` finds memory (`avail`), the value `get_random_u32_below` returns
  (`r`), and how many bytes `copy_to_user` fails to copy (`fault`).
* `printk` output, the number of draws from the random source and the number
  of calls of the delivery routine are recorded in the kernel state.
-/

namespace Fortuner

/-! ## Data model -/

def EFAULT : Int := 14
def ENOMEM : Int := 12
def EINVAL : Int := 22

/-- State maintained per file descriptor (fortuner.c, lines 18-21). -/
structure fortuner_state where
  fortune_idx : Int
deriving DecidableEq, Repr

/-- The part of `struct file` the handlers touch. -/
structure file where
  private_data : Nat
deriving DecidableEq, Repr

/-- The two messages `fortuner_read` prints. -/
inductive LogRecord where
  | info_read (fortune_idx : Int)
  | warn_read_failed (retval : Int)
deriving DecidableEq, Repr

/-- Kernel-side state visible to the handlers. -/
structure Kernel where
  heap : List (Nat × fortuner_state)
  log : List LogRecord
  draws : Nat
  deliveries : Nat
deriving DecidableEq, Repr

/-- Length of a C string: the bytes before the first NUL. -/
def strlen : List Char → Nat
  | [] => 0
  | c :: cs => if c = Char.ofNat 0 then 0 else strlen cs + 1

/-- Reading through a pointer to a `struct fortuner_state`. -/
def deref (k : Kernel) (p : Nat) : Option fortuner_state :=
  if p = 0 then none else List.lookup p k.heap

/-- Address handed out by a successful `kmalloc`: non-NULL and not live. -/
def kmalloc_addr (heap : List (Nat × fortuner_state)) : Nat :=
  (heap.map Prod.fst).foldr max 0 + 1

/-- The call `kmalloc(sizeof(*state), GFP_KERNEL)`: NULL when no memory is available. -/
def kmalloc (k : Kernel) (avail : Bool) : Nat :=
  if avail then kmalloc_addr k.heap else 0

/-- The call `kfree(p)`: nothing for NULL, undefined for a pointer that is not live. -/
def kfree (k : Kernel) (p : Nat) : Option Kernel :=
  if p = 0 then some k
  else
    match deref k p with
    | none => none
    | some _ => some { k with heap := k.heap.filter (fun e => e.1 ≠ p) }

/-- Conversion of a `u32` value to `int` (two's complement wrap). -/
def u32_to_int (r : Nat) : Int :=
  if r % 2 ^ 32 < 2 ^ 31 then ((r % 2 ^ 32 : Nat) : Int) else ((r % 2 ^ 32 : Nat) : Int) - 2 ^ 32

/-- The array access `fortunes[i]` with an `int` index: undefined outside the table. -/
def fortunes_at (catalog : List (List Char)) (i : Int) : Option (List Char) :=
  if i < 0 then none else catalog.get? i.toNat

/-- Number of bytes `copy_to_user(to, from, n)` leaves uncopied, given the fault. -/
def copy_to_user (n fault : Nat) : Nat := min fault n

/-- Result of `simple_read_from_buffer`: return value, `*ppos`, bytes written to the user buffer. -/
structure CopyResult where
  retval : Int
  ppos : Int
  copied : List Char
deriving DecidableEq, Repr

/-- The kernel library routine `simple_read_from_buffer(to, count, ppos, from, available)`
of fs/libfs.c, called at fortuner.c line 58. -/
def simple_read_from_buffer (count : Nat) (ppos : Int) (src : List Char) (available : Nat)
    (fault : Nat) : CopyResult :=
  let pos := ppos
  if pos < 0 then { retval := -EINVAL, ppos := ppos, copied := [] }
  else if pos ≥ (available : Int) ∨ count = 0 then { retval := 0, ppos := ppos, copied := [] }
  else
    let count1 := if count > available - pos.toNat then available - pos.toNat else count
    let ret := copy_to_user count1 fault
    if ret = count1 then { retval := -EFAULT, ppos := ppos, copied := [] }
    else
      let count2 := count1 - ret
      { retval := (count2 : Int), ppos := pos + (count2 : Int),
        copied := (src.drop pos.toNat).take count2 }

/-- Outcome of `fortuner_open` and `fortuner_release`. -/
structure HandlerResult where
  retval : Int
  file : file
  kernel : Kernel
deriving DecidableEq, Repr

/-- Outcome of `fortuner_read`: return value, `*offset`, bytes put in the user buffer. -/
structure ReadResult where
  retval : Int
  offset : Int
  delivered : List Char
  kernel : Kernel
deriving DecidableEq, Repr

/-! ## The handlers -/

/-- The handler `fortuner_open` (fortuner.c, lines 25-38). -/
def fortuner_open (f : file) (k : Kernel) (avail : Bool) (r : Nat) : HandlerResult :=
  let state := kmalloc k avail
  if state = 0 then { retval := -ENOMEM, file := f, kernel := k }
  else
    let st : fortuner_state := { fortune_idx := u32_to_int r }
    { retval := 0,
      file := { f with private_data := state },
      kernel := { k with heap := (state, st) :: k.heap, draws := k.draws + 1 } }

/-- The handler `fortuner_read` (fortuner.c, lines 41-66). -/
def fortuner_read (catalog : List (List Char)) (f : file) (k : Kernel)
    (buffer_length : Nat) (offset : Int) (fault : Nat) : Option ReadResult :=
  match deref k f.private_data with
  | none => none
  | some state =>
    match fortunes_at catalog state.fortune_idx with
    | none => none
    | some fortune =>
      let len := strlen fortune
      let k1 : Kernel :=
        if offset = 0 then { k with log := k.log ++ [LogRecord.info_read state.fortune_idx] }
        else k
      let c := simple_read_from_buffer buffer_length offset fortune len fault
      let k2 : Kernel := { k1 with deliveries := k1.deliveries + 1 }
      let k3 : Kernel :=
        if c.retval < 0 then { k2 with log := k2.log ++ [LogRecord.warn_read_failed c.retval] }
        else k2
      some { retval := c.retval, offset := c.ppos, delivered := c.copied, kernel := k3 }

/-- The handler `fortuner_release` (fortuner.c, lines 68-72). -/
def fortuner_release (f : file) (k : Kernel) : Option HandlerResult :=
  match kfree k f.private_data with
  | none => none
  | some k1 => some { retval := 0, file := f, kernel := k1 }

/-! ## Sessions: successive reads on one handle -/

/-- Outcome of a sequence of reads: all bytes delivered, final `*offset`, final kernel state. -/
structure SeqResult where
  bytes : List Char
  offset : Int
  kernel : Kernel
deriving DecidableEq, Repr

/-- Successive `fortuner_read` calls on one handle; a call is a buffer length with the
fault met by its copy.  The offset written by one call is the one passed to the next. -/
def read_seq (catalog : List (List Char)) (f : file) :
    Kernel → Int → List (Nat × Nat) → Option SeqResult
  | k, off, [] => some { bytes := [], offset := off, kernel := k }
  | k, off, (n, fault) :: rest =>
    match fortuner_read catalog f k n off fault with
    | none => none
    | some r =>
      match read_seq catalog f r.kernel r.offset rest with
      | none => none
      | some s => some { s with bytes := r.delivered ++ s.bytes }

/-- Calls without delivery fault. -/
def no_fault (sizes : List Nat) : List (Nat × Nat) := sizes.map (fun n => (n, 0))

/-- Number of records naming the chosen fortune in a log. -/
def info_count (log : List LogRecord) : Nat :=
  (log.filter (fun e => match e with
    | LogRecord.info_read _ => true
    | LogRecord.warn_read_failed _ => false)).length

/-- A kernel with nothing allocated and nothing logged. -/
def boot : Kernel := { heap := [], log := [], draws := 0, deliveries := 0 }

/-- A handle that was never opened. -/
def fresh_file : file := { private_data := 0 }

/-- The catalog of the scenario of the specification. -/
def demo_catalog : List (List Char) := ["Fortune A".toList, "Fortune B".toList]

/-- The session of the scenario: the first open after boot, the random source giving 1. -/
def demo_session : HandlerResult := fortuner_open fresh_file boot true 1

/-- A table of `2^31 + 1` (empty) fortunes. -/
def huge_catalog : List (List Char) := List.replicate (2 ^ 31 + 1) []


/-! ## Auxiliary facts -/

theorem strlen_le_length (s : List Char) : strlen s ≤ s.length := by
  induction s with
  | nil => simp [strlen]
  | cons c cs ih =>
    simp only [strlen, List.length_cons]
    split <;> omega

/-- Without fault, at a non-negative position, the delivery routine hands over the
bytes from the position on, as many as asked for and at most what is left. -/
theorem simple_read_no_fault (n c : Nat) (src : List Char) (available : Nat) :
    simple_read_from_buffer n (c : Int) src available 0 =
      { retval := ((min n (available - c) : Nat) : Int),
        ppos := (c : Int) + ((min n (available - c) : Nat) : Int),
        copied := (src.drop c).take (min n (available - c)) } := by
  unfold simple_read_from_buffer copy_to_user
  have h0 : ¬ ((c : Int) < 0) := by omega
  simp only [h0, if_false, Int.toNat_ofNat]
  by_cases h1 : ((c : Int) ≥ (available : Int) ∨ n = 0)
  · simp only [h1, if_true]
    have : min n (available - c) = 0 := by
      rcases h1 with h | h
      · have : available - c = 0 := by omega
        simp [this]
      · simp [h]
    simp [this]
  · simp only [h1, if_false]
    have h2 : ¬ ((c : Int) ≥ (available : Int)) := fun h => h1 (Or.inl h)
    have h3 : n ≠ 0 := fun h => h1 (Or.inr h)
    by_cases h4 : n > available - c
    · have hm : min n (available - c) = available - c := by omega
      have hne : ¬ (0 = available - c) := by omega
      simp [h4, hm, hne]
    · have hm : min n (available - c) = n := by omega
      have hne : ¬ (0 = n) := by omega
      simp [h4, hm, hne]

/-- On an open session whose index is inside the table, `fortuner_read` returns. -/
theorem fortuner_read_open (catalog : List (List Char)) (f : file) (k : Kernel)
    (st : fortuner_state) (fortune : List Char) (n : Nat) (off : Int) (fault : Nat)
    (h1 : deref k f.private_data = some st)
    (h2 : fortunes_at catalog st.fortune_idx = some fortune) :
    ∃ r, fortuner_read catalog f k n off fault = some r
      ∧ r.retval = (simple_read_from_buffer n off fortune (strlen fortune) fault).retval
      ∧ r.offset = (simple_read_from_buffer n off fortune (strlen fortune) fault).ppos
      ∧ r.delivered = (simple_read_from_buffer n off fortune (strlen fortune) fault).copied
      ∧ r.kernel.heap = k.heap
      ∧ r.kernel.deliveries = k.deliveries + 1
      ∧ r.kernel.draws = k.draws := by
  simp only [fortuner_read, h1, h2]
  refine ⟨_, rfl, rfl, rfl, rfl, ?_, ?_, ?_⟩
  · dsimp only; split <;> split <;> rfl
  · dsimp only; split <;> split <;> rfl
  · dsimp only; split <;> split <;> rfl

/-- At or past the end of the buffer the delivery routine copies nothing, whatever the
count and the fault. -/
theorem simple_read_at_end (n : Nat) (off : Int) (src : List Char) (available fault : Nat)
    (h : (available : Int) ≤ off) :
    simple_read_from_buffer n off src available fault =
      { retval := 0, ppos := off, copied := [] } := by
  unfold simple_read_from_buffer
  have h0 : ¬ (off < 0) := by omega
  have h1 : off ≥ (available : Int) ∨ n = 0 := Or.inl h
  simp only [h0, if_false, h1, if_true]

/-- The delivery routine returns zero exactly at or past the end, or for an empty
buffer at a non-negative position. -/
theorem simple_read_zero_iff (n : Nat) (off : Int) (src : List Char) (available fault : Nat) :
    (simple_read_from_buffer n off src available fault).retval = 0
      ↔ ((available : Int) ≤ off ∨ (n = 0 ∧ 0 ≤ off)) := by
  unfold simple_read_from_buffer copy_to_user
  by_cases h0 : off < 0
  · simp only [h0, if_true, EINVAL]
    constructor
    · intro h; omega
    · intro h; omega
  · simp only [h0, if_false]
    by_cases h1 : (off ≥ (available : Int) ∨ n = 0)
    · simp only [h1, if_true]
      constructor
      · intro _
        rcases h1 with h | h
        · exact Or.inl h
        · exact Or.inr ⟨h, by omega⟩
      · intro _; trivial
    · simp only [h1, if_false]
      have h2 : ¬ (off ≥ (available : Int)) := fun h => h1 (Or.inl h)
      have h3 : n ≠ 0 := fun h => h1 (Or.inr h)
      have hpos : 0 < available - off.toNat := by omega
      have hc1 : 0 < (if n > available - off.toNat then available - off.toNat else n) := by
        split <;> omega
      generalize (if n > available - off.toNat then available - off.toNat else n) = count1 at hc1
      constructor
      · intro h
        exfalso
        by_cases h4 : min fault count1 = count1
        · simp [h4, EFAULT] at h
        · simp only [h4, if_false] at h
          omega
      · intro h; omega

/-- Reading through a pointer depends on the heap only. -/
theorem deref_of_heap_eq (k1 k2 : Kernel) (p : Nat) (h : k1.heap = k2.heap) :
    deref k1 p = deref k2 p := by
  unfold deref
  rw [h]

/-- Every sequence of reads on an open session returns, and leaves the heap as it was. -/
theorem read_seq_open (catalog : List (List Char)) (f : file) (st : fortuner_state)
    (fortune : List Char) (h2 : fortunes_at catalog st.fortune_idx = some fortune)
    (calls : List (Nat × Nat)) :
    ∀ (k : Kernel) (off : Int), deref k f.private_data = some st →
      ∃ s, read_seq catalog f k off calls = some s ∧ s.kernel.heap = k.heap
        ∧ s.kernel.draws = k.draws := by
  induction calls with
  | nil =>
    intro k off _
    exact ⟨_, rfl, rfl, rfl⟩
  | cons call rest ih =>
    intro k off h1
    obtain ⟨n, fault⟩ := call
    obtain ⟨r, hr, -, -, -, hheap, -, hdraws⟩ :=
      fortuner_read_open catalog f k st fortune n off fault h1 h2
    have h1r : deref r.kernel f.private_data = some st := by
      rw [deref_of_heap_eq r.kernel k f.private_data hheap]; exact h1
    obtain ⟨s, hs, hsheap, hsdraws⟩ := ih r.kernel r.offset h1r
    refine ⟨{ s with bytes := r.delivered ++ s.bytes }, ?_, ?_, ?_⟩
    · simp only [read_seq, hr, hs]
    · exact hsheap.trans hheap
    · exact hsdraws.trans hdraws

/-- Reads without fault from cursor `c` deliver the bytes from `c` on, as many as the
buffer lengths add up to and at most what is left. -/
theorem read_seq_no_fault_from (catalog : List (List Char)) (f : file) (st : fortuner_state)
    (fortune : List Char) (h2 : fortunes_at catalog st.fortune_idx = some fortune)
    (sizes : List Nat) :
    ∀ (k : Kernel) (c : Nat), deref k f.private_data = some st → c ≤ strlen fortune →
      ∃ s, read_seq catalog f k (c : Int) (no_fault sizes) = some s
        ∧ s.bytes = (fortune.drop c).take (min sizes.sum (strlen fortune - c))
        ∧ s.offset = ((c + min sizes.sum (strlen fortune - c) : Nat) : Int) := by
  induction sizes with
  | nil =>
    intro k c _ _
    refine ⟨_, rfl, ?_, ?_⟩
    · simp
    · simp
  | cons n rest ih =>
    intro k c h1 hc
    obtain ⟨r, hr, -, hoff, hdel, hheap, -, -⟩ :=
      fortuner_read_open catalog f k st fortune n (c : Int) 0 h1 h2
    rw [simple_read_no_fault] at hoff hdel
    dsimp only at hoff hdel
    have h1r : deref r.kernel f.private_data = some st := by
      rw [deref_of_heap_eq r.kernel k f.private_data hheap]; exact h1
    have hc2 : c + min n (strlen fortune - c) ≤ strlen fortune := by omega
    have hoff2 : r.offset = ((c + min n (strlen fortune - c) : Nat) : Int) := by
      rw [hoff]; push_cast; rfl
    obtain ⟨s, hs, hbytes, hso⟩ := ih r.kernel (c + min n (strlen fortune - c)) h1r hc2
    rw [← hoff2] at hs
    refine ⟨{ s with bytes := r.delivered ++ s.bytes }, ?_, ?_, ?_⟩
    · simp only [no_fault, List.map_cons, read_seq, hr]
      simp only [no_fault] at hs
      rw [hs]
    · dsimp only
      rw [hdel, hbytes]
      have hsum : min (n :: rest).sum (strlen fortune - c) =
          min n (strlen fortune - c)
            + min rest.sum (strlen fortune - (c + min n (strlen fortune - c))) := by
        simp only [List.sum_cons]; omega
      rw [hsum, List.take_add, List.drop_drop]
    · dsimp only
      rw [hso]
      simp only [List.sum_cons]
      congr 1
      omega

/-- A pointer above every live address is not live. -/
theorem lookup_none_of_lt (heap : List (Nat × fortuner_state)) (p : Nat)
    (h : ∀ e ∈ heap, e.1 < p) : List.lookup p heap = none := by
  induction heap with
  | nil => rfl
  | cons e rest ih =>
    obtain ⟨a, b⟩ := e
    have ha : a < p := h (a, b) (List.mem_cons_self _ _)
    have hne : (p == a) = false := by
      rw [beq_eq_false_iff_ne]; omega
    rw [List.lookup_cons, hne]
    exact ih (fun e he => h e (List.mem_cons_of_mem _ he))

theorem lt_kmalloc_addr (heap : List (Nat × fortuner_state)) :
    ∀ e ∈ heap, e.1 < kmalloc_addr heap := by
  induction heap with
  | nil => intro e he; cases he
  | cons a rest ih =>
    intro e he
    unfold kmalloc_addr at ih ⊢
    simp only [List.map_cons, List.foldr_cons]
    rcases List.mem_cons.mp he with h | h
    · subst h; omega
    · have := ih e h; omega

/-- The address `kmalloc` hands out is fresh: not NULL and not live before the call. -/
theorem kmalloc_addr_fresh (k : Kernel) :
    kmalloc_addr k.heap ≠ 0 ∧ deref k (kmalloc_addr k.heap) = none := by
  have hne : kmalloc_addr k.heap ≠ 0 := by unfold kmalloc_addr; omega
  refine ⟨hne, ?_⟩
  unfold deref
  rw [if_neg hne]
  exact lookup_none_of_lt k.heap _ (lt_kmalloc_addr k.heap)

/-- What a successful `fortuner_open` leaves behind. -/
theorem fortuner_open_ok (f : file) (k : Kernel) (r : Nat) :
    (fortuner_open f k true r).retval = 0
      ∧ (fortuner_open f k true r).file.private_data = kmalloc_addr k.heap
      ∧ (fortuner_open f k true r).kernel.draws = k.draws + 1
      ∧ deref (fortuner_open f k true r).kernel (fortuner_open f k true r).file.private_data
          = some { fortune_idx := u32_to_int r } := by
  have hne : kmalloc_addr k.heap ≠ 0 := (kmalloc_addr_fresh k).1
  simp [fortuner_open, kmalloc, hne, deref, List.lookup_cons]

/-- A `u32` below `2^31` keeps its value as an `int`. -/
theorem u32_to_int_small (r : Nat) (h : r < 2 ^ 31) : u32_to_int r = (r : Int) := by
  unfold u32_to_int
  have h1 : r % 2 ^ 32 = r := Nat.mod_eq_of_lt (by omega)
  rw [h1, if_pos h]

/-! ## A single read -/

/-- C2: on an open session with cursor `c`, `0 ≤ c ≤ strlen(fortune)`, a read with
buffer length `n` and no delivery fault returns `k = min(n, strlen(fortune) - c)`,
delivers exactly the `k` bytes `fortune[c .. c+k)` and sets the cursor to `c + k`. -/
theorem fortuner_read_single (catalog : List (List Char)) (f : file) (k : Kernel)
    (st : fortuner_state) (fortune : List Char) (n : Nat) (c : Int)
    (h1 : deref k f.private_data = some st)
    (h2 : fortunes_at catalog st.fortune_idx = some fortune)
    (hc0 : 0 ≤ c) (hc : c ≤ (strlen fortune : Int)) :
    ∃ r, fortuner_read catalog f k n c 0 = some r
      ∧ r.retval = ((min n (strlen fortune - c.toNat) : Nat) : Int)
      ∧ r.delivered = (fortune.drop c.toNat).take (min n (strlen fortune - c.toNat))
      ∧ r.delivered.length = min n (strlen fortune - c.toNat)
      ∧ r.offset = c + ((min n (strlen fortune - c.toNat) : Nat) : Int) := by
  obtain ⟨r, hr, hret, hoff, hdel, -, -, -⟩ :=
    fortuner_read_open catalog f k st fortune n c 0 h1 h2
  have hcn : c = ((c.toNat : Nat) : Int) := (Int.toNat_of_nonneg hc0).symm
  have hs := simple_read_no_fault n c.toNat fortune (strlen fortune)
  rw [← hcn] at hs
  rw [hs] at hret hoff hdel
  refine ⟨r, hr, hret, hdel, ?_, hoff⟩
  rw [hdel, List.length_take, List.length_drop]
  have := strlen_le_length fortune
  omega

/-- C6: on an open session whose cursor is at or past the end of the fortune, a read
returns 0, delivers nothing and leaves the cursor where it is, for every buffer length
(and every fault); and from every cursor `≥ 0` a read without fault returns a value that
is not negative and not above `min(buffer_length, bytes left)`, and delivers that many
bytes. -/
theorem fortuner_read_bounds (catalog : List (List Char)) (f : file) (k : Kernel)
    (st : fortuner_state) (fortune : List Char) (n : Nat) (off : Int)
    (h1 : deref k f.private_data = some st)
    (h2 : fortunes_at catalog st.fortune_idx = some fortune) :
    ((strlen fortune : Int) ≤ off → ∀ fault, ∃ r,
        fortuner_read catalog f k n off fault = some r
          ∧ r.retval = 0 ∧ r.delivered = [] ∧ r.offset = off)
    ∧ (0 ≤ off → ∃ r, fortuner_read catalog f k n off 0 = some r
          ∧ 0 ≤ r.retval
          ∧ r.retval ≤ ((min n (strlen fortune - off.toNat) : Nat) : Int)
          ∧ (r.delivered.length : Int) = r.retval) := by
  constructor
  · intro hend fault
    obtain ⟨r, hr, hret, hoff, hdel, -, -, -⟩ :=
      fortuner_read_open catalog f k st fortune n off fault h1 h2
    rw [simple_read_at_end n off fortune (strlen fortune) fault hend] at hret hoff hdel
    exact ⟨r, hr, hret, hdel, hoff⟩
  · intro h0
    obtain ⟨r, hr, hret, hoff, hdel, -, -, -⟩ :=
      fortuner_read_open catalog f k st fortune n off 0 h1 h2
    have hcn : off = ((off.toNat : Nat) : Int) := (Int.toNat_of_nonneg h0).symm
    have hs := simple_read_no_fault n off.toNat fortune (strlen fortune)
    rw [← hcn] at hs
    rw [hs] at hret hoff hdel
    dsimp only at hret hoff hdel
    refine ⟨r, hr, ?_, ?_, ?_⟩
    · rw [hret]; omega
    · rw [hret]
    · rw [hdel, hret, List.length_take, List.length_drop]
      have := strlen_le_length fortune
      omega

/-- C5 (amended): on an open session a read returns 0 exactly when the cursor is at or
past the end of the fortune, or the buffer length is 0 and the cursor is not negative;
so a zero result of a read with a non-empty buffer means end of stream. -/
theorem fortuner_read_zero_iff (catalog : List (List Char)) (f : file) (k : Kernel)
    (st : fortuner_state) (fortune : List Char) (n : Nat) (off : Int) (fault : Nat)
    (h1 : deref k f.private_data = some st)
    (h2 : fortunes_at catalog st.fortune_idx = some fortune) :
    ∃ r, fortuner_read catalog f k n off fault = some r
      ∧ (r.retval = 0 ↔ ((strlen fortune : Int) ≤ off ∨ (n = 0 ∧ 0 ≤ off)))
      ∧ (0 < n → r.retval = 0 → (strlen fortune : Int) ≤ off) := by
  obtain ⟨r, hr, hret, -, -, -, -, -⟩ :=
    fortuner_read_open catalog f k st fortune n off fault h1 h2
  have hz := simple_read_zero_iff n off fortune (strlen fortune) fault
  rw [← hret] at hz
  refine ⟨r, hr, hz, ?_⟩
  intro hn h0
  rcases hz.mp h0 with h | h
  · exact h
  · omega

/-- C10: on an open session the value `fortuner_read` returns is the result of its one
call of `simple_read_from_buffer`; when that result is negative a warning carrying it is
the last record logged and the same negative value is returned, and otherwise no warning
is logged. -/
theorem fortuner_read_propagates (catalog : List (List Char)) (f : file) (k : Kernel)
    (st : fortuner_state) (fortune : List Char) (n : Nat) (off : Int) (fault : Nat)
    (h1 : deref k f.private_data = some st)
    (h2 : fortunes_at catalog st.fortune_idx = some fortune) :
    ∃ r, fortuner_read catalog f k n off fault = some r
      ∧ r.retval = (simple_read_from_buffer n off fortune (strlen fortune) fault).retval
      ∧ r.kernel.deliveries = k.deliveries + 1
      ∧ (r.retval < 0 → r.kernel.log =
          (k.log ++ if off = 0 then [LogRecord.info_read st.fortune_idx] else [])
            ++ [LogRecord.warn_read_failed r.retval])
      ∧ (0 ≤ r.retval → r.kernel.log =
          k.log ++ if off = 0 then [LogRecord.info_read st.fortune_idx] else []) := by
  simp only [fortuner_read, h1, h2]
  refine ⟨_, rfl, rfl, ?_, ?_, ?_⟩
  · dsimp only; split <;> split <;> rfl
  · intro hneg
    dsimp only at hneg ⊢
    rw [if_pos hneg]
    by_cases h0 : off = 0 <;> simp [h0]
  · intro hpos
    dsimp only at hpos ⊢
    rw [if_neg (by omega)]
    by_cases h0 : off = 0 <;> simp [h0]


/-! ## Opening and releasing -/

/-- C9: `fortuner_open` returns `-ENOMEM` exactly when the allocation fails, and then
leaves the handle and the kernel state (random source included) as they were; otherwise
it returns 0 with `private_data` pointing at a state that was not live before the call
and now holds the drawn index. -/
theorem fortuner_open_enomem_iff (f : file) (k : Kernel) (avail : Bool) (r : Nat) :
    ((fortuner_open f k avail r).retval = -ENOMEM ↔ avail = false)
      ∧ (avail = false →
          (fortuner_open f k avail r).file = f ∧ (fortuner_open f k avail r).kernel = k)
      ∧ (avail = true →
          (fortuner_open f k avail r).retval = 0
            ∧ (fortuner_open f k avail r).file.private_data ≠ 0
            ∧ deref k (fortuner_open f k avail r).file.private_data = none
            ∧ deref (fortuner_open f k avail r).kernel
                (fortuner_open f k avail r).file.private_data
                = some { fortune_idx := u32_to_int r }
            ∧ (fortuner_open f k avail r).kernel.draws = k.draws + 1) := by
  have hfresh := kmalloc_addr_fresh k
  cases avail with
  | false =>
    refine ⟨?_, ?_, ?_⟩
    · simp [fortuner_open, kmalloc]
    · intro _; simp [fortuner_open, kmalloc]
    · intro h; cases h
  | true =>
    obtain ⟨h0, hp, hd, hs⟩ := fortuner_open_ok f k r
    refine ⟨?_, ?_, ?_⟩
    · rw [h0]; simp [ENOMEM]
    · intro h; cases h
    · intro _
      refine ⟨h0, ?_, ?_, hs, hd⟩
      · rw [hp]; exact hfresh.1
      · rw [hp]; exact hfresh.2

/-- C8 (amended): for a table of at most `2^31` entries and a drawn value `r` below its
length, a successful `fortuner_open` stores `fortune_idx = r`, inside the table, and every
later sequence of reads on the handle finds its fortune and returns. -/
theorem fortuner_open_index_in_bounds (catalog : List (List Char)) (f : file) (k : Kernel)
    (r : Nat) (hlen : catalog.length ≤ 2 ^ 31) (hr : r < catalog.length) :
    (fortuner_open f k true r).retval = 0
      ∧ deref (fortuner_open f k true r).kernel (fortuner_open f k true r).file.private_data
          = some { fortune_idx := (r : Int) }
      ∧ (0 : Int) ≤ (r : Int) ∧ (r : Int) < (catalog.length : Int)
      ∧ (∃ fortune, fortunes_at catalog (r : Int) = some fortune)
      ∧ (∀ (off : Int) (calls : List (Nat × Nat)), ∃ s,
          read_seq catalog (fortuner_open f k true r).file (fortuner_open f k true r).kernel
            off calls = some s) := by
  obtain ⟨h0, -, -, hs⟩ := fortuner_open_ok f k r
  rw [u32_to_int_small r (by omega)] at hs
  have hget : fortunes_at catalog (r : Int) = some (catalog.get ⟨r, hr⟩) := by
    unfold fortunes_at
    have : ¬ ((r : Int) < 0) := by omega
    rw [if_neg this, Int.toNat_ofNat, List.get?_eq_get hr]
  refine ⟨h0, hs, by omega, by omega, ⟨_, hget⟩, ?_⟩
  intro off calls
  obtain ⟨s, hseq, -, -⟩ :=
    read_seq_open catalog (fortuner_open f k true r).file { fortune_idx := (r : Int) }
      (catalog.get ⟨r, hr⟩) hget calls (fortuner_open f k true r).kernel off hs
  exact ⟨s, hseq⟩

/-- C3 (amended): the handlers check no handle state.  On a handle whose `private_data`
is not live, `fortuner_read` has no defined result, and `fortuner_release` returns 0 and
changes nothing when the pointer is NULL and has no defined result otherwise. -/
theorem handlers_do_not_check_handle (catalog : List (List Char)) (f : file) (k : Kernel)
    (h : deref k f.private_data = none) :
    (∀ (n : Nat) (off : Int) (fault : Nat), fortuner_read catalog f k n off fault = none)
      ∧ fortuner_release f k =
          (if f.private_data = 0 then some { retval := 0, file := f, kernel := k } else none) := by
  constructor
  · intro n off fault
    simp only [fortuner_read, h]
  · unfold fortuner_release kfree
    by_cases hp : f.private_data = 0
    · simp [hp]
    · simp [hp, h]

/-! ## Sessions -/

/-- C1: on an open session, reads without fault from cursor 0, whatever their buffer
lengths, deliver in call order the first `min(sum of lengths, strlen(fortune))` bytes of
the fortune of the session; once the lengths add up to `strlen(fortune)` that is the
whole fortune, of that length, and the cursor stands at its end. -/
theorem read_seq_reproduces_fortune (catalog : List (List Char)) (f : file) (k : Kernel)
    (st : fortuner_state) (fortune : List Char) (sizes : List Nat)
    (h1 : deref k f.private_data = some st)
    (h2 : fortunes_at catalog st.fortune_idx = some fortune) :
    ∃ s, read_seq catalog f k 0 (no_fault sizes) = some s
      ∧ s.bytes = fortune.take (min sizes.sum (strlen fortune))
      ∧ s.bytes.length = min sizes.sum (strlen fortune)
      ∧ (strlen fortune ≤ sizes.sum →
          s.bytes = fortune.take (strlen fortune) ∧ s.bytes.length = strlen fortune
            ∧ s.offset = (strlen fortune : Int)) := by
  obtain ⟨s, hs, hb, ho⟩ :=
    read_seq_no_fault_from catalog f st fortune h2 sizes k 0 h1 (Nat.zero_le _)
  simp only [List.drop_zero, Nat.sub_zero, Nat.zero_add, Nat.cast_zero] at hs hb ho
  have hle := strlen_le_length fortune
  have hlen : s.bytes.length = min sizes.sum (strlen fortune) := by
    rw [hb, List.length_take]; omega
  refine ⟨s, hs, hb, hlen, ?_⟩
  intro hsum
  have hm : min sizes.sum (strlen fortune) = strlen fortune := by omega
  rw [hm] at hb hlen ho
  exact ⟨hb, hlen, ho⟩

/-- C7: on an open session every sequence of reads (any buffer lengths, any starting
cursor, any delivery faults) returns and leaves the state behind `private_data`, hence
its `fortune_idx`, as `fortuner_open` stored it. -/
theorem fortune_idx_invariant (catalog : List (List Char)) (f : file) (k : Kernel)
    (st : fortuner_state) (fortune : List Char) (off : Int) (calls : List (Nat × Nat))
    (h1 : deref k f.private_data = some st)
    (h2 : fortunes_at catalog st.fortune_idx = some fortune) :
    ∃ s, read_seq catalog f k off calls = some s
      ∧ deref s.kernel f.private_data = some st
      ∧ s.kernel.heap = k.heap := by
  obtain ⟨s, hs, hheap, -⟩ := read_seq_open catalog f st fortune h2 calls k off h1
  refine ⟨s, hs, ?_, hheap⟩
  rw [deref_of_heap_eq s.kernel k f.private_data hheap]
  exact h1

/-! ## The scenario of the specification, and the inputs where the code departs from it -/

/-- Witness of C2 on the scenario: cursor 3, buffer length 100. -/
theorem fortuner_read_single_witness :
    deref demo_session.kernel demo_session.file.private_data = some { fortune_idx := 1 }
      ∧ fortunes_at demo_catalog 1 = some "Fortune B".toList
      ∧ ∃ r, fortuner_read demo_catalog demo_session.file demo_session.kernel 100 3 0 = some r
          ∧ r.retval = ((min 100 (strlen "Fortune B".toList - (3 : Int).toNat) : Nat) : Int)
          ∧ r.delivered = ("Fortune B".toList.drop (3 : Int).toNat).take
              (min 100 (strlen "Fortune B".toList - (3 : Int).toNat))
          ∧ r.delivered.length = min 100 (strlen "Fortune B".toList - (3 : Int).toNat)
          ∧ r.offset = 3 + ((min 100 (strlen "Fortune B".toList - (3 : Int).toNat) : Nat) : Int) :=
  ⟨by decide, by decide,
    fortuner_read_single demo_catalog demo_session.file demo_session.kernel
      { fortune_idx := 1 } "Fortune B".toList 100 3 (by decide) (by decide) (by decide)
      (by decide)⟩

/-- Witness of C6 on the scenario: cursor 9, the end of the fortune. -/
theorem fortuner_read_bounds_witness :
    deref demo_session.kernel demo_session.file.private_data = some { fortune_idx := 1 }
      ∧ fortunes_at demo_catalog 1 = some "Fortune B".toList
      ∧ (((strlen "Fortune B".toList : Int) ≤ 9 → ∀ fault, ∃ r,
            fortuner_read demo_catalog demo_session.file demo_session.kernel 100 9 fault = some r
              ∧ r.retval = 0 ∧ r.delivered = [] ∧ r.offset = 9)
          ∧ ((0 : Int) ≤ 9 → ∃ r,
            fortuner_read demo_catalog demo_session.file demo_session.kernel 100 9 0 = some r
              ∧ 0 ≤ r.retval
              ∧ r.retval ≤ ((min 100 (strlen "Fortune B".toList - (9 : Int).toNat) : Nat) : Int)
              ∧ (r.delivered.length : Int) = r.retval)) :=
  ⟨by decide, by decide,
    fortuner_read_bounds demo_catalog demo_session.file demo_session.kernel
      { fortune_idx := 1 } "Fortune B".toList 100 9 (by decide) (by decide)⟩

/-- Counterexample to C5: a read with buffer length 0 at cursor 0 of a nine-byte fortune
returns 0 although the cursor is not at the end. -/
theorem zero_length_read_returns_zero_before_end :
    deref demo_session.kernel demo_session.file.private_data = some { fortune_idx := 1 }
      ∧ fortunes_at demo_catalog 1 = some "Fortune B".toList
      ∧ strlen "Fortune B".toList = 9
      ∧ (fortuner_read demo_catalog demo_session.file demo_session.kernel 0 0 0).map
          (fun r => (r.retval, r.offset)) = some (0, 0) := by
  decide

/-- Witness of C5 (amended) on the scenario: buffer length 100 at cursor 9. -/
theorem fortuner_read_zero_iff_witness :
    deref demo_session.kernel demo_session.file.private_data = some { fortune_idx := 1 }
      ∧ fortunes_at demo_catalog 1 = some "Fortune B".toList
      ∧ ∃ r, fortuner_read demo_catalog demo_session.file demo_session.kernel 100 9 0 = some r
          ∧ (r.retval = 0 ↔ ((strlen "Fortune B".toList : Int) ≤ 9 ∨ (100 = 0 ∧ (0 : Int) ≤ 9)))
          ∧ (0 < 100 → r.retval = 0 → (strlen "Fortune B".toList : Int) ≤ 9) :=
  ⟨by decide, by decide,
    fortuner_read_zero_iff demo_catalog demo_session.file demo_session.kernel
      { fortune_idx := 1 } "Fortune B".toList 100 9 0 (by decide) (by decide)⟩

/-- Witness of C10 on the scenario: the copy of a five-byte read at cursor 0 faults
entirely, the delivery routine gives `-EFAULT`, and that is what is returned. -/
theorem fortuner_read_propagates_witness :
    deref demo_session.kernel demo_session.file.private_data = some { fortune_idx := 1 }
      ∧ fortunes_at demo_catalog 1 = some "Fortune B".toList
      ∧ (simple_read_from_buffer 5 0 "Fortune B".toList (strlen "Fortune B".toList) 5).retval
          = -14
      ∧ ∃ r, fortuner_read demo_catalog demo_session.file demo_session.kernel 5 0 5 = some r
          ∧ r.retval
              = (simple_read_from_buffer 5 0 "Fortune B".toList (strlen "Fortune B".toList) 5).retval
          ∧ r.kernel.deliveries = demo_session.kernel.deliveries + 1
          ∧ (r.retval < 0 → r.kernel.log =
              (demo_session.kernel.log ++
                  if (0 : Int) = 0 then
                    [LogRecord.info_read ({ fortune_idx := 1 } : fortuner_state).fortune_idx]
                  else [])
                ++ [LogRecord.warn_read_failed r.retval])
          ∧ (0 ≤ r.retval → r.kernel.log =
              demo_session.kernel.log ++
                if (0 : Int) = 0 then
                  [LogRecord.info_read ({ fortune_idx := 1 } : fortuner_state).fortune_idx]
                else []) :=
  ⟨by decide, by decide, by decide,
    fortuner_read_propagates demo_catalog demo_session.file demo_session.kernel
      { fortune_idx := 1 } "Fortune B".toList 5 0 5 (by decide) (by decide)⟩

/-- Witness of C1 on the scenario: reads of 3, 100 and 100 bytes. -/
theorem read_seq_reproduces_fortune_witness :
    deref demo_session.kernel demo_session.file.private_data = some { fortune_idx := 1 }
      ∧ fortunes_at demo_catalog 1 = some "Fortune B".toList
      ∧ ∃ s, read_seq demo_catalog demo_session.file demo_session.kernel 0
            (no_fault [3, 100, 100]) = some s
          ∧ s.bytes = "Fortune B".toList.take
              (min [3, 100, 100].sum (strlen "Fortune B".toList))
          ∧ s.bytes.length = min [3, 100, 100].sum (strlen "Fortune B".toList)
          ∧ (strlen "Fortune B".toList ≤ [3, 100, 100].sum →
              s.bytes = "Fortune B".toList.take (strlen "Fortune B".toList)
                ∧ s.bytes.length = strlen "Fortune B".toList
                ∧ s.offset = (strlen "Fortune B".toList : Int)) :=
  ⟨by decide, by decide,
    read_seq_reproduces_fortune demo_catalog demo_session.file demo_session.kernel
      { fortune_idx := 1 } "Fortune B".toList [3, 100, 100] (by decide) (by decide)⟩

/-- Witness of C7 on the scenario: a faulting read, an empty read and a full read. -/
theorem fortune_idx_invariant_witness :
    deref demo_session.kernel demo_session.file.private_data = some { fortune_idx := 1 }
      ∧ fortunes_at demo_catalog 1 = some "Fortune B".toList
      ∧ ∃ s, read_seq demo_catalog demo_session.file demo_session.kernel 0
            [(5, 5), (0, 0), (100, 0)] = some s
          ∧ deref s.kernel demo_session.file.private_data = some { fortune_idx := 1 }
          ∧ s.kernel.heap = demo_session.kernel.heap :=
  ⟨by decide, by decide,
    fortune_idx_invariant demo_catalog demo_session.file demo_session.kernel
      { fortune_idx := 1 } "Fortune B".toList 0 [(5, 5), (0, 0), (100, 0)] (by decide)
      (by decide)⟩

/-- C4, the code at a failing input: `fortuner_open` logs nothing, and of the two reads
with buffer lengths 0 and 100 that follow, both log the record naming the fortune, since
the first leaves the cursor at 0.  The same happens when the first copy faults. -/
theorem info_record_logged_twice :
    info_count demo_session.kernel.log = 0
      ∧ (read_seq demo_catalog demo_session.file demo_session.kernel 0 (no_fault [0, 100])).map
          (fun s => (s.bytes, info_count s.kernel.log)) = some ("Fortune B".toList, 2)
      ∧ (read_seq demo_catalog demo_session.file demo_session.kernel 0 [(100, 100), (100, 0)]).map
          (fun s => (s.bytes, info_count s.kernel.log)) = some ("Fortune B".toList, 2) := by
  decide

/-- Counterexample to C3: `fortuner_release` on a handle that was never opened returns 0,
as on success. -/
theorem release_of_unopened_handle_returns_zero :
    deref boot fresh_file.private_data = none
      ∧ fortuner_release fresh_file boot
          = some { retval := 0, file := fresh_file, kernel := boot } := by
  decide

/-- Witness of C3 (amended) on the handle that was never opened. -/
theorem handlers_do_not_check_handle_witness :
    deref boot fresh_file.private_data = none
      ∧ (∀ (n : Nat) (off : Int) (fault : Nat),
          fortuner_read demo_catalog fresh_file boot n off fault = none)
      ∧ fortuner_release fresh_file boot =
          (if fresh_file.private_data = 0 then
            some { retval := 0, file := fresh_file, kernel := boot } else none) :=
  ⟨by decide, handlers_do_not_check_handle demo_catalog fresh_file boot (by decide)⟩

/-- Counterexample to C8: with a table of `2^31 + 1` entries the random source may give
`2^31`, a `u32` below the table length; stored in the `int` field it is `-2^31`, outside
the table, and no read on the session finds a fortune. -/
theorem index_negative_on_huge_catalog :
    huge_catalog ≠ []
      ∧ 2 ^ 31 < 2 ^ 32
      ∧ 2 ^ 31 < huge_catalog.length
      ∧ (fortuner_open fresh_file boot true (2 ^ 31)).retval = 0
      ∧ deref (fortuner_open fresh_file boot true (2 ^ 31)).kernel
          (fortuner_open fresh_file boot true (2 ^ 31)).file.private_data
          = some { fortune_idx := -2147483648 }
      ∧ fortunes_at huge_catalog (-2147483648) = none
      ∧ (∀ (n : Nat) (off : Int) (fault : Nat),
          fortuner_read huge_catalog (fortuner_open fresh_file boot true (2 ^ 31)).file
            (fortuner_open fresh_file boot true (2 ^ 31)).kernel n off fault = none) := by
  have hlen : huge_catalog.length = 2 ^ 31 + 1 := by
    unfold huge_catalog
    exact List.length_replicate _ _
  have hu : u32_to_int (2 ^ 31) = -2147483648 := by
    unfold u32_to_int
    norm_num
  obtain ⟨h0, -, -, hd⟩ := fortuner_open_ok fresh_file boot (2 ^ 31)
  rw [hu] at hd
  have hf : fortunes_at huge_catalog (-2147483648) = none := by
    unfold fortunes_at
    rw [if_pos (by norm_num)]
  refine ⟨?_, by norm_num, ?_, h0, hd, hf, ?_⟩
  · intro h
    rw [h] at hlen
    simp at hlen
  · rw [hlen]; exact Nat.lt_succ_self _
  · intro n off fault
    simp only [fortuner_read, hd, hf]

/-- Witness of C8 (amended) on the scenario: two fortunes, the random source giving 1. -/
theorem fortuner_open_index_in_bounds_witness :
    demo_catalog.length ≤ 2 ^ 31 ∧ 1 < demo_catalog.length
      ∧ (fortuner_open fresh_file boot true 1).retval = 0
      ∧ deref (fortuner_open fresh_file boot true 1).kernel
          (fortuner_open fresh_file boot true 1).file.private_data
          = some { fortune_idx := ((1 : Nat) : Int) }
      ∧ (0 : Int) ≤ ((1 : Nat) : Int) ∧ ((1 : Nat) : Int) < (demo_catalog.length : Int)
      ∧ (∃ fortune, fortunes_at demo_catalog ((1 : Nat) : Int) = some fortune)
      ∧ (∀ (off : Int) (calls : List (Nat × Nat)), ∃ s,
          read_seq demo_catalog (fortuner_open fresh_file boot true 1).file
            (fortuner_open fresh_file boot true 1).kernel off calls = some s) :=
  ⟨by decide, by decide,
    fortuner_open_index_in_bounds demo_catalog fresh_file boot 1 (by decide) (by decide)⟩

end Fortuner
